import Mathlib

/-!
Verification development for the execution engine of the entran repository
(src/src/services/ExecutionService.js): a shallow embedding of the session
state machine, step evaluator, variable resolver and risk classifier,
followed by theorems about the behaviour of these operations.

Modelling conventions (translated from the JavaScript source):
- JavaScript objects used as string-keyed maps become association lists in
  insertion order; property assignment overwrites in place (`objSet`),
  property read is `objGet`.  A map whose values may be the JS value
  `undefined` stores `Option String` values, and a read that finds a stored
  `none` behaves like a missing property (this mirrors the pervasive
  `x !== undefined` checks in the source).
- Timestamps (`new Date()` / `toISOString`) become a `Nat` clock carried in
  an `Env` record; the source never branches on a timestamp.
- External process execution (`execAsync`) becomes an oracle
  `exec : String -> ExecResult` in `Env`; a spawned process either yields
  stdout/stderr or an error (failure, timeout, buffer overflow), which is
  exactly what the awaited promise gives the source.
- JavaScript truthiness of strings (`""` is falsy) is modelled explicitly by
  `jsOrDefault` / `jsOrStr`; `x || y` on possibly-undefined strings becomes
  these helpers.
- Numbers that the source only ever increments and compares are `Nat`.
-/

namespace Entran

/-! ## JS object / string helpers -/

/-- Property read on a JS object modelled as an association list. -/
def objGet (m : List (String × α)) (k : String) : Option α :=
  match m with
  | [] => none
  | (k₁, v) :: rest => if k₁ = k then some v else objGet rest k

/-- Property write on a JS object: overwrite in place, else append. -/
def objSet (m : List (String × α)) (k : String) (v : α) : List (String × α) :=
  match m with
  | [] => [(k, v)]
  | (k₁, v₁) :: rest => if k₁ = k then (k, v) :: rest else (k₁, v₁) :: objSet rest k v

/-- Read of a map whose stored values may be the JS `undefined`:
a stored `none` reads like a missing property. -/
def propGet (m : List (String × Option String)) (k : String) : Option String :=
  match objGet m k with
  | some v => v
  | none => none

/-- JS `a || d` for a possibly-undefined string `a`: both `undefined` and
`""` are falsy and fall through to the default. -/
def jsOrDefault (a : Option String) (d : String) : String :=
  match a with
  | some v => if v = "" then d else v
  | none => d

/-- JS `a || b` keeping the result possibly-undefined. -/
def jsOrStr (a b : Option String) : Option String :=
  match a with
  | some v => if v = "" then b else some v
  | none => b

/-- JS string interpolation of a possibly-undefined value:
`${undefined}` prints as "undefined". -/
def jsTemplateStr (a : Option String) : String :=
  a.getD "undefined"

/-- JS loose equality `==` restricted to string-or-undefined operands. -/
def jsLooseEq (a b : Option String) : Bool :=
  match a, b with
  | some x, some y => x = y
  | none, none => true
  | _, _ => false

/-- Does `pat` start the list `l`? -/
def startsWithChars : List Char → List Char → Bool
  | [], _ => true
  | _ :: _, [] => false
  | p :: ps, c :: cs => p = c && startsWithChars ps cs

/-- Does `pat` occur anywhere inside `l`? -/
def containsChars (pat : List Char) : List Char → Bool
  | [] => pat.isEmpty
  | c :: cs => startsWithChars pat (c :: cs) || containsChars pat cs

/-- JS `s.includes(pat)`. -/
def strIncludes (s pat : String) : Bool :=
  containsChars pat.toList s.toList

/-- `Array.prototype.indexOf`: index of the first occurrence, `-1` if absent. -/
def jsIndexOf (l : List String) (x : String) : Int :=
  match l.findIdx? (fun y => y = x) with
  | some i => (i : Int)
  | none => -1

/-- JS array read `l[i]` with a possibly negative index. -/
def jsListGet (l : List String) (i : Int) : Option String :=
  if i < 0 then none else l.get? i.toNat

/-! ## Data model -/

/-- One record of `heap.tool_outputs`. -/
structure ToolOutput where
  command : String
  output : String
  timestamp : Nat
deriving Repr, DecidableEq

/-- A condition of a `conditional` step (`equality_check`, `contains_check`,
`boolean_check`; the `type` stays an open string as in the source). -/
structure Condition where
  type : String
  «variable» : Option String := none
  value : Option String := none
  expression : Option String := none
deriving Repr, DecidableEq

/-- A branch / choice action (the step evaluator handles `command` and `log`). -/
structure ActionObj where
  type : String
  command : Option String := none
  assign_to : Option String := none
  message : Option String := none
deriving Repr, DecidableEq

/-- One entry of a `choice` step's `options` array. -/
structure ChoiceOption where
  description : Option String := none
  action : Option ActionObj := none
deriving Repr, DecidableEq

/-- A program step; a plain record with a `type` tag, as in the source.
Fields irrelevant to every code path of the execution engine
(`tool`, `parameters`) are omitted. -/
structure Step where
  id : String
  type : String
  command : Option String := none
  assign_to : Option String := none
  «variable» : Option String := none
  value : Option String := none
  condition : Option Condition := none
  true_branch : Option ActionObj := none
  false_branch : Option ActionObj := none
  options : List ChoiceOption := []
  input : List String := []
  extract : List String := []
  description : Option String := none
  message : Option String := none
  level : Option String := none
deriving Repr, DecidableEq

/-- A procedure of the transpiled program. -/
structure Procedure where
  id : String
  name : Option String := none
  steps : List Step
deriving Repr, DecidableEq

/-- The transpiled program consumed read-only by the engine. -/
structure Program where
  name : Option String := none
  version : Option String := none
  tools : List String := []
  procedures : List Procedure
  execution_order : List String
deriving Repr, DecidableEq

/-- `analysis.risk_assessment`. -/
structure RiskAssessment where
  overall_risk : Option String := none
deriving Repr, DecidableEq

/-- The optional semantic-analysis annotation (only the fields
`createInitialState` reads). -/
structure Analysis where
  program_intent : Option String := none
  confidence : Option Nat := none
  risk_assessment : Option RiskAssessment := none
  procedures : Option (List String) := none
  global_entities : Option (List String) := none
deriving Repr, DecidableEq

/-- The `analysis_summary` block of the initial state. -/
structure AnalysisSummary where
  program_intent : Option String
  confidence : Option Nat
  risk_level : String
  total_procedures : Nat
  total_entities : Nat
deriving Repr, DecidableEq

/-- The execution cursor. -/
structure CursorPos where
  procedure_id : String
  step_id : String
  step_index : Nat
  instruction_pointer : Nat
deriving Repr, DecidableEq

/-- One stack frame (the source creates exactly one and never pushes). -/
structure Frame where
  procedure : String
  «variables» : List (String × Option String)
  return_address : Option String
  created_at : Nat
deriving Repr, DecidableEq

/-- One entry of `execution_history`. -/
structure HistoryEntry where
  step_id : String
  type : String
  started_at : Nat
  completed_at : Nat
  duration_ms : Nat
  success : Bool
  output : Option String
  error : Option String
deriving Repr, DecidableEq

/-- The `error_state` record (`step_id` is absent for the step-limit error). -/
structure ErrorState where
  step_id : Option String
  error : Option String
  timestamp : Nat
deriving Repr, DecidableEq

/-- `memory.token_usage` (written once, never read). -/
structure TokenUsage where
  total_tokens : Nat
  input_tokens : Nat
  output_tokens : Nat
  cost_estimate : String
deriving Repr, DecidableEq

/-- The heap of cached side effects. -/
structure Heap where
  tool_outputs : List (String × ToolOutput)
  temp_objects : List (String × String)
deriving Repr, DecidableEq

/-- Persistent memory. -/
structure MemoryBlock where
  persistent_vars : List (String × Option String)
  token_usage : TokenUsage
deriving Repr, DecidableEq

/-- The per-session `ExecutionState`. -/
structure ExecutionState where
  status : String
  current_step : CursorPos
  stack : List Frame
  heap : Heap
  memory : MemoryBlock
  execution_history : List HistoryEntry
  breakpoints : List String
  error_state : Option ErrorState
  started_at : Nat
  completed_at : Option Nat
  analysis_summary : Option AnalysisSummary
deriving Repr, DecidableEq

/-- Session options (defaults applied by `startExecution`). -/
structure SessionOptions where
  debug_mode : Bool := true
  timeout : Nat := 30000
  memory_limit : Nat := 10485760
  auto_continue : Bool := false
  risk_level : String := "medium"
deriving Repr, DecidableEq

/-- One record of the session's `commandHistory`. -/
structure CommandRecord where
  command : String
  timestamp : Nat
  result : Bool
deriving Repr, DecidableEq

/-- A debugging session. -/
structure Session where
  id : String
  program : Program
  analysis : Option Analysis
  options : SessionOptions
  state : ExecutionState
  createdAt : Nat
  lastActivity : Nat
  commandHistory : List CommandRecord
  totalStepsExecuted : Nat
deriving Repr, DecidableEq

/-- Outcome of an awaited `execAsync` call: resolved stdout/stderr, or a
rejection (process failure, timeout, output overflow) whose error object may
carry partial stdout/stderr. -/
inductive ExecResult where
  | ok (stdout stderr : String)
  | err (message : String) (stdout stderr : Option String)
deriving Repr, DecidableEq

/-- The ambient world: the process-spawning oracle and the clock. -/
structure Env where
  exec : String → ExecResult
  now : Nat

/-- Result of evaluating one step.  The source returns ad-hoc objects; the
fields below are the union of the fields the engine itself ever reads or the
claims mention (payload-only fields such as `inputs`, `extracted`,
`selected_option` are omitted: nothing reads them). -/
structure StepResult where
  success : Bool
  output : Option String := none
  error : Option String := none
  command : Option String := none
  stdout : Option String := none
  stderr : Option String := none
  risk_level : Option String := none
  condition_result : Option Bool := none
  message : Option String := none
  «variable» : Option String := none
  value : Option String := none
deriving Repr, DecidableEq

/-- Result of a debug command (`stepOver`, `continue`, ...).  The source
returns the live `session.state` inside this object; here the updated
session is returned alongside, so the `state` field is left out. -/
structure DebugResult where
  success : Bool
  message : Option String := none
  error : Option String := none
  step_result : Option StepResult := none
deriving Repr, DecidableEq

/-! ## Variable resolver (§4.1) -/

/-- First lookup tier of `getVariable`: the current (= last) stack frame.
The stack is created with one frame and never shrinks, so the empty-stack
fallback is unreachable. -/
def frameGet (s : Session) (varName : String) : Option String :=
  match s.state.stack.getLast? with
  | some currentFrame => propGet currentFrame.«variables» varName
  | none => none

/-- Second lookup tier: `memory.persistent_vars`. -/
def memGet (s : Session) (varName : String) : Option String :=
  propGet s.state.memory.persistent_vars varName

/-- Third lookup tier: `heap.tool_outputs`. -/
def toolGet (s : Session) (varName : String) : Option ToolOutput :=
  objGet s.state.heap.tool_outputs varName

/-- `getVariable`: current stack frame, then persistent memory, then tool
outputs (returning the recorded `output` string). -/
def getVariable (s : Session) (varName : String) : Option String :=
  match frameGet s varName with
  | some v => some v
  | none =>
    match memGet s varName with
    | some v => some v
    | none =>
      match toolGet s varName with
      | some o => some o.output
      | none => none

/-- A character matched by the regex class `\w`. -/
def isWordChar (c : Char) : Bool :=
  c.isAlphanum || c = '_'

/-- The scanner of the global regex replace, structurally recursive on a
fuel that bounds the number of characters still to be consumed (each
iteration consumes at least one character, so a fuel equal to the input
length is never exhausted). -/
def resolveCharsFuel (lookupVar : String → Option String) : Nat → List Char → List Char
  | _, [] => []
  | 0, _ :: _ => []
  | fuel + 1, c :: rest =>
    if c = '$' then
      let nameChars := rest.takeWhile isWordChar
      if nameChars.isEmpty then
        c :: resolveCharsFuel lookupVar fuel rest
      else
        match lookupVar (String.mk nameChars) with
        | some v =>
          v.toList ++ resolveCharsFuel lookupVar fuel (rest.drop nameChars.length)
        | none =>
          c :: (nameChars ++ resolveCharsFuel lookupVar fuel (rest.drop nameChars.length))
    else
      c :: resolveCharsFuel lookupVar fuel rest

/-- The global regex replace `text.replace(/\$(\w+)/g, ...)`: scan left to
right; at each `$` take the maximal run of word characters; substitute the
variable's value when defined, otherwise keep the token verbatim. -/
def resolveChars (lookupVar : String → Option String) (l : List Char) : List Char :=
  resolveCharsFuel lookupVar l.length l

/-- `resolveVariables`: the guard `if (!text) return text` followed by the
regex replacement. -/
def resolveVariables (s : Session) (text : String) : String :=
  if text = "" then text
  else String.mk (resolveChars (getVariable s) text.toList)

/-- `resolveVariables` applied to a possibly-undefined template (the JS guard
returns `undefined` unchanged). -/
def resolveVariablesOpt (s : Session) (text : Option String) : Option String :=
  match text with
  | none => none
  | some t => some (resolveVariables s t)

/-! ## Risk classifier (§4.2) -/

/-- High-risk substrings of `assessCommandRisk`. -/
def highRisk : List String :=
  ["rm -rf", "format", "fdisk", "mkfs", "dd if=", "shutdown", "reboot"]

/-- Medium-risk substrings of `assessCommandRisk`. -/
def mediumRisk : List String :=
  ["rm ", "del ", "systemctl stop", "service stop", "iptables", "chmod 777"]

/-- JS `toLowerCase` as used on command strings (ASCII case mapping),
implemented on the character list so that it evaluates inside the kernel. -/
def strToLower (s : String) : String :=
  String.mk (s.toList.map Char.toLower)

/-- `assessCommandRisk`: lowercase, then fixed substring tables. -/
def assessCommandRisk (command : String) : String :=
  let cmd := strToLower command
  if highRisk.any (fun risk => strIncludes cmd risk) then "high"
  else if mediumRisk.any (fun risk => strIncludes cmd risk) then "medium"
  else "low"

/-! ## Step evaluator (§4.5) -/

/-- Mutate the last (current) stack frame in place. -/
def updateLastFrame (stack : List Frame) (f : Frame → Frame) : List Frame :=
  match stack with
  | [] => []
  | [fr] => [f fr]
  | fr :: rest => fr :: updateLastFrame rest f

/-- `executeCommand` after the risk gate: resolve the template, run the
process, on success store the combined trimmed output under `assign_to` in
`heap.tool_outputs` and mirror it into the current frame. -/
def executeCommandRun (env : Env) (s : Session) (cmdText : String)
    (assign_to : Option String) : Session × StepResult :=
  let resolvedCommand := resolveVariables s cmdText
  match env.exec resolvedCommand with
  | .ok stdout stderr =>
    let output := jsOrDefault (some stdout.trim) stderr.trim
    let s₁ :=
      match assign_to with
      | some a =>
        let s₂ := { s with state := { s.state with heap := { s.state.heap with
          tool_outputs := objSet s.state.heap.tool_outputs a
            { command := resolvedCommand, output := output, timestamp := env.now } } } }
        { s₂ with state := { s₂.state with
            stack := updateLastFrame s₂.state.stack (fun fr =>
              { fr with «variables» := objSet fr.«variables» a (some output) }) } }
      | none => s
    (s₁, { success := true, output := some output, command := some resolvedCommand,
           stdout := some stdout, stderr := some stderr })
  | .err message stdout stderr =>
    (s, { success := false, error := some message,
          output := jsOrStr stdout (jsOrStr stderr none),
          command := some cmdText })

/-- `executeCommand`: in safe mode (`risk_level = "low"`) classify the RAW
command template first and reject `high`; only then resolve variables and
spawn the process.  A JS `undefined` command raises a TypeError inside the
try block (in `toLowerCase` or in `execAsync`), caught as a failure. -/
def executeCommand (env : Env) (s : Session) (command : Option String)
    (assign_to : Option String) : Session × StepResult :=
  match command with
  | none =>
    (s, { success := false, error := some "TypeError: command is undefined" })
  | some cmdText =>
    if s.options.risk_level = "low" then
      let riskLevel := assessCommandRisk cmdText
      if riskLevel = "high" then
        (s, { success := false, error := some "High-risk command blocked in safe mode",
              output := none, risk_level := some riskLevel })
      else executeCommandRun env s cmdText assign_to
    else executeCommandRun env s cmdText assign_to

/-- `evaluateCondition`; an unrecognised condition type falls to `false`. -/
def evaluateCondition (s : Session) (condition : Condition) : Bool :=
  match condition.type with
  | "equality_check" =>
    let varValue := getVariable s (jsTemplateStr condition.«variable»)
    jsLooseEq varValue condition.value
  | "contains_check" =>
    let containerValue := getVariable s (jsTemplateStr condition.«variable»)
    match containerValue with
    | none => false
    | some v => if v = "" then false else strIncludes v (jsTemplateStr condition.value)
  | "boolean_check" =>
    match condition.expression with
    | none => false
    | some expr => decide (resolveVariables s expr ≠ "")
  | _ => false

/-- `executeAction` (branch of a conditional, or a choice's action). -/
def executeAction (env : Env) (s : Session) (action : ActionObj) : Session × StepResult :=
  match action.type with
  | "command" => executeCommand env s action.command action.assign_to
  | "log" => (s, { success := true, output := action.message, message := action.message })
  | _ => (s, { success := false, error := some ("Unknown action type: " ++ action.type) })

/-- `executeConditional`.  A missing condition object raises a TypeError on
`condition.type`, caught by the surrounding try as a failure. -/
def executeConditional (env : Env) (s : Session) (step : Step) : Session × StepResult :=
  match step.condition with
  | none =>
    (s, { success := false, error := some "Condition evaluation failed: condition is undefined" })
  | some condition =>
    let conditionResult := evaluateCondition s condition
    match (if conditionResult then step.true_branch else step.false_branch) with
    | some action => executeAction env s action
    | none =>
      (s, { success := true,
            output := some ("Condition evaluated to: " ++
              (if conditionResult then "true" else "false")),
            condition_result := some conditionResult })

/-- `executeAssignment`: resolve `value`; write into
`memory.persistent_vars[step.variable || "temp"]` when `assign_to` is
`"memory"`/`"global"`, otherwise into the current frame under `assign_to`. -/
def executeAssignment (s : Session) (step : Step) : Session × StepResult :=
  let value := resolveVariablesOpt s step.value
  let s₁ :=
    if step.assign_to = some "memory" ∨ step.assign_to = some "global" then
      { s with state := { s.state with memory := { s.state.memory with
          persistent_vars := objSet s.state.memory.persistent_vars
            (jsOrDefault step.«variable» "temp") value } } }
    else
      { s with state := { s.state with
          stack := updateLastFrame s.state.stack (fun fr =>
            { fr with «variables» := objSet fr.«variables» (jsTemplateStr step.assign_to) value }) } }
  (s₁, { success := true,
         output := some ("Assigned: " ++ jsTemplateStr step.assign_to ++ " = " ++ jsTemplateStr value),
         «variable» := step.assign_to,
         value := value })

/-- `executeChoice`: automation picks `options[0]`; run its action if any. -/
def executeChoice (env : Env) (s : Session) (step : Step) : Session × StepResult :=
  match step.options.head? with
  | some selectedOption =>
    match selectedOption.action with
    | some action =>
      let er := executeAction env s action
      (er.1, { success := er.2.success,
               output := some ("Selected option: " ++ jsTemplateStr selectedOption.description) })
    | none =>
      (s, { success := true,
            output := some ("Choice presented: " ++ toString step.options.length ++
              " options available") })
  | none =>
    (s, { success := true,
          output := some ("Choice presented: " ++ toString step.options.length ++
            " options available") })

/-- `executeAnalysis`: read-only; the `inputs`/`extracted` payload is computed
from `getVariable` and regex matches on the description but lands only in the
result object, never in the state, so it is not carried here. -/
def executeAnalysis (s : Session) (step : Step) : Session × StepResult :=
  (s, { success := true, output := some ("Analysis: " ++ jsTemplateStr step.description) })

/-- `executeNote`: pure logging step, always succeeds. -/
def executeNote (s : Session) (step : Step) : Session × StepResult :=
  (s, { success := true,
        output := some ("Note (" ++ jsOrDefault step.level "info" ++ "): " ++
          jsTemplateStr step.message),
        message := step.message })

/-- `executeCurrentStep`: dispatch on `step.type` (unknown types yield a
failure result), then append one `execution_history` entry regardless of the
outcome.  The single `env.now` clock makes `duration_ms` zero. -/
def executeCurrentStep (env : Env) (s : Session) (step : Step) : Session × StepResult :=
  let er :=
    match step.type with
    | "command" => executeCommand env s step.command step.assign_to
    | "conditional" => executeConditional env s step
    | "assignment" => executeAssignment s step
    | "choice" => executeChoice env s step
    | "analysis" => executeAnalysis s step
    | "note" => executeNote s step
    | _ => (s, { success := false, error := some ("Unknown step type: " ++ step.type) })
  let result := er.2
  let entry : HistoryEntry :=
    { step_id := step.id, type := step.type,
      started_at := env.now, completed_at := env.now, duration_ms := 0,
      success := result.success,
      output := jsOrStr result.output none,
      error := jsOrStr result.error none }
  ({ er.1 with state := { er.1.state with
      execution_history := er.1.state.execution_history ++ [entry] } }, result)

/-! ## Execution state machine (§4.4) and cursor advancement (§4.6) -/

/-- `getCurrentStep`: dereference the cursor into the program;
`none` when the procedure is missing or the index is past the end. -/
def getCurrentStep (s : Session) : Option Step :=
  match s.program.procedures.find? (fun p => p.id = s.state.current_step.procedure_id) with
  | none => none
  | some procedure => procedure.steps.get? s.state.current_step.step_index

/-- Overwrite `session.state.status`. -/
def setStatus (s : Session) (st : String) : Session :=
  { s with state := { s.state with status := st } }

/-- `advanceToNextStep`: bump `step_index`/`instruction_pointer`; at the end
of a procedure move to the next id of `execution_order` (when the current id
is absent, `indexOf` gives `-1` and the "next" entry is element 0); when no
procedure remains the incremented cursor keeps its now-stale `step_id`. -/
def advanceToNextStep (s : Session) : Session :=
  match s.program.procedures.find? (fun p => p.id = s.state.current_step.procedure_id) with
  | none => s
  | some procedure =>
    let cs := { s.state.current_step with
                step_index := s.state.current_step.step_index + 1,
                instruction_pointer := s.state.current_step.instruction_pointer + 1 }
    if procedure.steps.length ≤ cs.step_index then
      let currentProcIndex := jsIndexOf s.program.execution_order s.state.current_step.procedure_id
      match jsListGet s.program.execution_order (currentProcIndex + 1) with
      | some nextProcedureId =>
        let nextProcedure := s.program.procedures.find? (fun p => p.id = nextProcedureId)
        let stepId := jsOrDefault ((nextProcedure.bind (fun p => p.steps.head?)).map Step.id) "unknown"
        let cs₁ := { cs with
          procedure_id := nextProcedureId, step_index := 0, step_id := stepId }
        { s with state := { s.state with current_step := cs₁ } }
      | none => { s with state := { s.state with current_step := cs } }
    else
      let stepId := jsOrDefault ((procedure.steps.get? cs.step_index).map Step.id) "unknown"
      { s with state := { s.state with current_step := { cs with step_id := stepId } } }

/-- `completeExecution` (the returned `summary` payload carries no state and
is omitted from `DebugResult`). -/
def completeExecution (env : Env) (s : Session) : Session × DebugResult :=
  let s₁ := { s with state := { s.state with status := "completed", completed_at := some env.now } }
  (s₁, { success := true, message := some "Execution completed successfully" })

/-- `isBreakpoint`: membership of a step id in `state.breakpoints`. -/
def isBreakpoint (s : Session) (stepId : String) : Bool :=
  s.state.breakpoints.contains stepId

/-- `stepOver`: no-op when already `completed`/`error`; completion when no
step remains; otherwise evaluate the current step.  On success advance the
cursor, bump the counter, then pause at a breakpoint on the NEW cursor, or
complete, or pause.  On failure set `error` and populate `error_state`. -/
def stepOver (env : Env) (s : Session) : Session × DebugResult :=
  if s.state.status = "completed" ∨ s.state.status = "error" then
    (s, { success := true, message := some ("Execution already " ++ s.state.status) })
  else
    match getCurrentStep s with
    | none => completeExecution env s
    | some currentStep =>
      let er := executeCurrentStep env (setStatus s "running") currentStep
      let stepResult := er.2
      if stepResult.success then
        let s₂ := advanceToNextStep er.1
        let s₃ := { s₂ with totalStepsExecuted := s₂.totalStepsExecuted + 1 }
        if isBreakpoint s₃ s₃.state.current_step.step_id then
          (setStatus s₃ "paused",
           { success := true, step_result := some stepResult,
             message := some "Paused at breakpoint" })
        else if (getCurrentStep s₃).isNone then
          completeExecution env s₃
        else
          (setStatus s₃ "paused",
           { success := stepResult.success, step_result := some stepResult })
      else
        let es : ErrorState :=
          { step_id := some currentStep.id, error := stepResult.error, timestamp := env.now }
        let s₂ := { er.1 with
          state := { er.1.state with status := "error", error_state := some es } }
        (s₂, { success := stepResult.success, step_result := some stepResult })

/-- The `while` loop of `continue`, with explicit fuel.  Each iteration ends
with status `paused`, `completed` or `error`, so the loop body runs at most
once more after any iteration and the fuel below is never exhausted. -/
def continueLoop (env : Env) (fuel : Nat) (s : Session) : Session × DebugResult :=
  match fuel with
  | 0 => (s, { success := false, error := some "out of fuel" })
  | fuel + 1 =>
    if (getCurrentStep s).isSome ∧ s.state.status = "running" then
      let er := stepOver env s
      if ¬ er.2.success then er
      else if er.1.state.status = "paused" then
        (er.1, { success := true, message := some "Execution paused" })
      else if 1000 < er.1.totalStepsExecuted then
        let es : ErrorState :=
          { step_id := none, error := some "Execution exceeded step limit (1000 steps)",
            timestamp := env.now }
        let s₂ := { er.1 with
          state := { er.1.state with status := "error", error_state := some es } }
        (s₂, { success := false, error := some "Step limit exceeded" })
      else continueLoop env fuel er.1
    else
      (s, { success := true,
            message := some (if s.state.status = "completed"
              then "Execution completed" else "Execution stopped") })

/-- `continue`: force status `running`, then loop `stepOver` until the state
stops being `running`, a step fails, the step is paused, or the counter
passes 1000. -/
def «continue» (env : Env) (s : Session) : Session × DebugResult :=
  continueLoop env 1002 (setStatus s "running")

/-- `pause`: effective only while `running`. -/
def pause (s : Session) : Session × DebugResult :=
  let s₁ := if s.state.status = "running" then setStatus s "paused" else s
  (s₁, { success := true, message := some "Execution paused" })

/-! ## Session lifecycle (§4.7) -/

/-- `createInitialState` for a program and optional analysis at clock `now`. -/
def createInitialState (now : Nat) (program : Program) (analysis : Option Analysis) :
    ExecutionState :=
  let firstProcedure := program.procedures.head?
  let firstStep := firstProcedure.bind (fun p => p.steps.head?)
  { status := "initialized",
    current_step :=
      { procedure_id := jsOrDefault (firstProcedure.map Procedure.id) "main",
        step_id := jsOrDefault (firstStep.map Step.id) "start",
        step_index := 0, instruction_pointer := 0 },
    stack := [{ procedure := jsOrDefault (firstProcedure.map Procedure.id) "main",
                «variables» := [], return_address := none, created_at := now }],
    heap := { tool_outputs := [], temp_objects := [] },
    memory := { persistent_vars := [],
                token_usage := { total_tokens := 0, input_tokens := 0,
                                 output_tokens := 0, cost_estimate := "$0.00" } },
    execution_history := [], breakpoints := [], error_state := none,
    started_at := now, completed_at := none,
    analysis_summary := analysis.map (fun a =>
      { program_intent := a.program_intent, confidence := a.confidence,
        risk_level := (match a.risk_assessment with
                       | some ra => jsOrDefault ra.overall_risk "unknown"
                       | none => "unknown"),
        total_procedures := (match a.procedures with | some ps => ps.length | none => 0),
        total_entities := (match a.global_entities with | some es => es.length | none => 0) }) }

/-- `reset`: recreate the state from scratch and zero the session counters. -/
def reset (env : Env) (s : Session) : Session × DebugResult :=
  let s₁ := { s with
    state := createInitialState env.now s.program s.analysis,
    totalStepsExecuted := 0, commandHistory := [] }
  (s₁, { success := true, message := some "Execution reset to beginning" })

/-- The session as built by `startExecution` (capacity check and the
`auto_continue` shortcut live above this layer). -/
def startSession (env : Env) (sessionId : String) (program : Program)
    (analysis : Option Analysis) (options : SessionOptions) : Session :=
  { id := sessionId, program := program, analysis := analysis, options := options,
    state := createInitialState env.now program analysis,
    createdAt := env.now, lastActivity := env.now,
    commandHistory := [], totalStepsExecuted := 0 }

/-- Result of `manageBreakpoint`. -/
structure BreakpointResult where
  success : Bool
  breakpoints : List String := []
  action : Option String := none
  step_id : Option String := none
  error : Option String := none
deriving Repr, DecidableEq

/-- `manageBreakpoint` over the session registry: unknown session id throws
"Session not found" (caught as a failure); otherwise `set` appends the step
id unless present, `remove` deletes its first occurrence.  No check relates
`stepId` to the session's program. -/
def manageBreakpoint (sessions : List (String × Session))
    (sessionId stepId action : String) : List (String × Session) × BreakpointResult :=
  match objGet sessions sessionId with
  | none => (sessions, { success := false, error := some "Session not found" })
  | some session =>
    let breakpoints := session.state.breakpoints
    let breakpoints :=
      if action = "set" ∧ ¬ breakpoints.contains stepId then breakpoints ++ [stepId]
      else if action = "remove" then breakpoints.erase stepId
      else breakpoints
    let session₁ := { session with state := { session.state with breakpoints := breakpoints } }
    (objSet sessions sessionId session₁,
     { success := true, breakpoints := breakpoints,
       action := some action, step_id := some stepId })

/-- Iterated `step_over` commands (used to state trace properties). -/
def iterStepOver (env : Env) : Nat → Session → Session
  | 0, s => s
  | n + 1, s => (stepOver env (iterStepOver env n s)).1

/-- `countTotalSteps`: total number of steps over all procedures. -/
def countTotalSteps (program : Program) : Nat :=
  program.procedures.foldl (fun total proc => total + proc.steps.length) 0

/-- The session `stepOver` builds after successfully evaluating the current
step: step evaluated, cursor advanced, counter bumped (the state
right before the breakpoint check). -/
def afterStep (env : Env) (s : Session) (step : Step) : Session :=
  let s₂ := advanceToNextStep (executeCurrentStep env (setStatus s "running") step).1
  { s₂ with totalStepsExecuted := s₂.totalStepsExecuted + 1 }

/-! ## Invariants, shape predicates and concrete fixtures -/

/-- The step evaluator only mutates the three data stores (frame variables,
heap, persistent memory) and appends to `execution_history`; every control
field of the session (cursor, status, counters, breakpoints, ...) is
untouched.  Proved below for every evaluator. -/
def SameCtl (s s₁ : Session) : Prop :=
  ∃ stack heap pv hist,
    s₁ = { s with state :=
      { s.state with
        stack := stack
        heap := heap
        memory := { s.state.memory with persistent_vars := pv }
        execution_history := s.state.execution_history ++ hist } }

/-- A step is well formed when an assignment step carries a `value` template
(the transpiler always emits one).  An assignment whose `value` is the JS
`undefined` would store `undefined` and thereby shadow an existing binding
into unresolvability; well-formedness rules that out. -/
def WellFormedStep (st : Step) : Prop :=
  st.type = "assignment" → st.value.isSome

/-- Every step of every procedure is well formed. -/
def WellFormedProgram (p : Program) : Prop :=
  ∀ proc ∈ p.procedures, ∀ st ∈ proc.steps, WellFormedStep st

/-- The error-state invariant of the spec: an `error` status always carries a
populated `error_state`. -/
def ErrInv (s : Session) : Prop :=
  s.state.status = "error" → s.state.error_state ≠ none

/-- Erase the two wall-clock fields of an `ExecutionState` (`started_at` and
each frame's `created_at`); used to compare reset states with fresh ones. -/
def timeless (st : ExecutionState) : ExecutionState :=
  { st with
    started_at := 0
    stack := st.stack.map (fun fr => { fr with created_at := 0 }) }

/-- A benign oracle: every command succeeds with empty output, clock 0. -/
def env0 : Env := { exec := fun _ => .ok "" "", now := 0 }

/-- The same oracle observed at clock 1. -/
def env1 : Env := { exec := fun _ => .ok "" "", now := 1 }

/-- An oracle under which every process prints "done", clock 0. -/
def envAcc : Env := { exec := fun _ => .ok "done" "", now := 0 }

/-- The i-th trivial `note` step. -/
def noteStepAt (i : Nat) : Step :=
  { id := "s" ++ toString i, type := "note", message := some "noop" }

/-- A program of `m` trivial note steps in one procedure `p1`. -/
def noteProg (m : Nat) : Program :=
  { name := some "notes",
    procedures := [{ id := "p1", steps := (List.range m).map noteStepAt }],
    execution_order := ["p1"] }

/-- The history entry that executing `noteStepAt i` records. -/
def noteHistEntry (env : Env) (i : Nat) : HistoryEntry :=
  { step_id := "s" ++ toString i, type := "note",
    started_at := env.now, completed_at := env.now, duration_ms := 0,
    success := true, output := some "Note (info): noop", error := none }

/-- The session state reached after `k` single steps of `noteProg m`
(for `k < m`): cursor on step `k`, counter `k`, history of the first `k`
notes, paused unless untouched. -/
def noteSessionAt (env : Env) (m k : Nat) : Session :=
  { id := "sid", program := noteProg m, analysis := none, options := {},
    state :=
      { status := if k = 0 then "initialized" else "paused",
        current_step :=
          { procedure_id := "p1", step_id := "s" ++ toString k,
            step_index := k, instruction_pointer := k },
        stack := [{ procedure := "p1", «variables» := [], return_address := none,
                    created_at := env.now }],
        heap := { tool_outputs := [], temp_objects := [] },
        memory := { persistent_vars := [],
                    token_usage := { total_tokens := 0, input_tokens := 0,
                                     output_tokens := 0, cost_estimate := "$0.00" } },
        execution_history := (List.range k).map (noteHistEntry env),
        breakpoints := [], error_state := none,
        started_at := env.now, completed_at := none, analysis_summary := none },
    createdAt := env.now, lastActivity := env.now, commandHistory := [],
    totalStepsExecuted := k }

/-- A one-step program around an arbitrary step. -/
def oneStepProg (st : Step) : Program :=
  { procedures := [{ id := "p1", steps := [st] }], execution_order := ["p1"] }

/-- A step with an unknown type tag. -/
def bogusStep : Step := { id := "b1", type := "bogus" }

/-- A fresh session over the unknown-type one-step program. -/
def sessBogus : Session := startSession env0 "sid" (oneStepProg bogusStep) none {}

/-- The session after the unknown step failed: status `error`. -/
def sErr : Session := (stepOver env0 sessBogus).1

/-- A conditional step whose condition type is unknown. -/
def weirdCondStep : Step :=
  { id := "w1", type := "conditional", condition := some { type := "mystery" } }

/-- A fresh session over the unknown-condition program. -/
def sessWeird : Session := startSession env0 "sid" (oneStepProg weirdCondStep) none {}

/-- A command step whose command is just a variable reference. -/
def cmdStep : Step := { id := "c1", type := "command", command := some "$c" }

/-- A frame binding `c` to a high-risk command string. -/
def riskFrame : Frame :=
  { procedure := "p1", «variables» := [("c", some "rm -rf /tmp/x")],
    return_address := none, created_at := 0 }

/-- A safe-mode session whose variable `c` resolves to a high-risk command. -/
def sessRisk : Session :=
  let s := startSession envAcc "sid" (oneStepProg cmdStep) none { risk_level := "low" }
  { s with state := { s.state with stack := [riskFrame] } }

/-- A fresh session over `noteProg m`. -/
def sessNotes (m : Nat) : Session := startSession env0 "sid" (noteProg m) none {}

/-- `sessNotes 2` with a breakpoint on its second step `s1`. -/
def sessBp : Session :=
  { sessNotes 2 with state := { (sessNotes 2).state with breakpoints := ["s1"] } }

/-- A session populated in all three variable tiers, for resolution tests:
frame `a`, persistent `a`/`b`, tool outputs `a`/`c3`. -/
def sessTier : Session :=
  let s := sessNotes 2
  { s with state :=
    { s.state with
      stack := [{ procedure := "p1", «variables» := [("a", some "FR")],
                  return_address := none, created_at := 0 }]
      memory := { persistent_vars := [("a", some "PM"), ("b", some "PM2")],
                  token_usage := s.state.memory.token_usage }
      heap := { tool_outputs := [("a", { command := "c", output := "TO", timestamp := 0 }),
                                 ("c3", { command := "c", output := "TO3", timestamp := 0 })],
                temp_objects := [] } } }

/-- An assignment step writing the resolved template `hello $y` to frame
variable `x`. -/
def asgStep : Step :=
  { id := "a1", type := "assignment", assign_to := some "x", value := some "hello $y" }

/-- An assignment step writing to persistent memory under `m1`. -/
def asgMemStep : Step :=
  { id := "a2", type := "assignment", assign_to := some "memory",
    «variable» := some "m1", value := some "v1" }

/-- A session registry with a single session under id `sid`. -/
def registry1 : List (String × Session) := [("sid", sessNotes 2)]

/-- A session in `error` status with a populated error state, sitting on the
(sole, unknown-type) step; concretely reachable as `sErr`. -/
def sessErrC3 : Session := sErr

/-! ## Map and string lemmas -/

theorem objGet_objSet (m : List (String × α)) (k : String) (v : α) (x : String) :
    objGet (objSet m k v) x = if k = x then some v else objGet m x := by
  induction m with
  | nil => simp [objSet, objGet]
  | cons hd tl ih =>
    obtain ⟨k₁, v₁⟩ := hd
    by_cases h₁ : k₁ = k
    · subst h₁
      by_cases h₂ : k₁ = x <;> simp [objSet, objGet, h₂]
    · by_cases h₂ : k₁ = x
      · subst h₂
        have : ¬ k = k₁ := fun h => h₁ h.symm
        simp [objSet, objGet, h₁, this]
      · simp [objSet, objGet, h₁, h₂, ih]

theorem propGet_objSet (m : List (String × Option String)) (k : String) (w : Option String)
    (x : String) :
    propGet (objSet m k w) x = if k = x then w else propGet m x := by
  by_cases h : k = x <;> simp [propGet, objGet_objSet, h]

theorem updateLastFrame_getLast? (f : Frame → Frame) :
    ∀ stack : List Frame, (updateLastFrame stack f).getLast? = stack.getLast?.map f
  | [] => rfl
  | [fr] => rfl
  | fr :: fr₁ :: rest => by
    have ih := updateLastFrame_getLast? f (fr₁ :: rest)
    show (fr :: updateLastFrame (fr₁ :: rest) f).getLast? = _
    cases hrest : updateLastFrame (fr₁ :: rest) f with
    | nil => cases rest <;> simp [updateLastFrame] at hrest
    | cons u us =>
      rw [hrest] at ih
      rw [List.getLast?_cons_cons, ih, List.getLast?_cons_cons]

theorem append_ne_empty_left (a b : String) (h : a ≠ "") : a ++ b ≠ "" := by
  obtain ⟨la⟩ := a
  obtain ⟨lb⟩ := b
  intro hc
  apply h
  have : la ++ lb = [] := congrArg String.data hc
  have : la = [] := (List.append_eq_nil.mp this).1
  rw [this]

theorem contains_append_singleton (xs : List String) (x : String) :
    (xs ++ [x]).contains x = true := by
  simp [List.contains_eq_any_beq]

/-! ## Control-field preservation by the step evaluator -/

theorem sameCtl_refl (s : Session) : SameCtl s s :=
  ⟨s.state.stack, s.state.heap, s.state.memory.persistent_vars, [], by
    rw [List.append_nil]⟩

theorem sameCtl_of_data (s : Session) (stack : List Frame) (heap : Heap)
    (pv : List (String × Option String)) :
    SameCtl s { s with state :=
      { s.state with
        stack := stack
        heap := heap
        memory := { s.state.memory with persistent_vars := pv } } } :=
  ⟨stack, heap, pv, [], by rw [List.append_nil]⟩

theorem sameCtl_append_entry (s s₁ : Session) (h : SameCtl s s₁) (entry : HistoryEntry) :
    SameCtl s { s₁ with state :=
      { s₁.state with
        execution_history := s₁.state.execution_history ++ [entry] } } := by
  obtain ⟨stack, heap, pv, hist, he⟩ := h
  subst he
  exact ⟨stack, heap, pv, hist ++ [entry], by rw [List.append_assoc]⟩

theorem executeCommandRun_sameCtl (env : Env) (s : Session) (c : String) (a : Option String) :
    SameCtl s (executeCommandRun env s c a).1 := by
  simp only [executeCommandRun]
  repeat' split
  all_goals first
    | exact sameCtl_refl s
    | exact sameCtl_of_data s _ _ _

theorem executeCommand_sameCtl (env : Env) (s : Session) (c : Option String)
    (a : Option String) : SameCtl s (executeCommand env s c a).1 := by
  simp only [executeCommand]
  split
  · exact sameCtl_refl s
  · split
    · split
      · exact sameCtl_refl s
      · exact executeCommandRun_sameCtl env s _ a
    · exact executeCommandRun_sameCtl env s _ a

theorem executeAction_sameCtl (env : Env) (s : Session) (action : ActionObj) :
    SameCtl s (executeAction env s action).1 := by
  simp only [executeAction]
  split
  · exact executeCommand_sameCtl env s action.command action.assign_to
  · exact sameCtl_refl s
  · exact sameCtl_refl s

theorem executeConditional_sameCtl (env : Env) (s : Session) (step : Step) :
    SameCtl s (executeConditional env s step).1 := by
  simp only [executeConditional]
  split
  · exact sameCtl_refl s
  · split
    · exact executeAction_sameCtl env s _
    · exact sameCtl_refl s

theorem executeAssignment_sameCtl (s : Session) (step : Step) :
    SameCtl s (executeAssignment s step).1 := by
  simp only [executeAssignment]
  split
  · exact sameCtl_of_data s _ _ _
  · exact sameCtl_of_data s _ _ _

theorem executeChoice_sameCtl (env : Env) (s : Session) (step : Step) :
    SameCtl s (executeChoice env s step).1 := by
  simp only [executeChoice]
  split
  · split
    · exact executeAction_sameCtl env s _
    · exact sameCtl_refl s
  · exact sameCtl_refl s

theorem executeCurrentStep_sameCtl (env : Env) (s : Session) (step : Step) :
    SameCtl s (executeCurrentStep env s step).1 := by
  simp only [executeCurrentStep]
  refine sameCtl_append_entry s _ ?_ _
  split
  · exact executeCommand_sameCtl env s step.command step.assign_to
  · exact executeConditional_sameCtl env s step
  · exact executeAssignment_sameCtl s step
  · exact executeChoice_sameCtl env s step
  · exact sameCtl_refl s
  · exact sameCtl_refl s
  · exact sameCtl_refl s

theorem SameCtl.program {s s₁ : Session} (h : SameCtl s s₁) : s₁.program = s.program := by
  obtain ⟨stack, heap, pv, hist, he⟩ := h; subst he; rfl

theorem SameCtl.options_eq {s s₁ : Session} (h : SameCtl s s₁) : s₁.options = s.options := by
  obtain ⟨stack, heap, pv, hist, he⟩ := h; subst he; rfl

theorem SameCtl.totalSteps {s s₁ : Session} (h : SameCtl s s₁) :
    s₁.totalStepsExecuted = s.totalStepsExecuted := by
  obtain ⟨stack, heap, pv, hist, he⟩ := h; subst he; rfl

theorem SameCtl.status {s s₁ : Session} (h : SameCtl s s₁) :
    s₁.state.status = s.state.status := by
  obtain ⟨stack, heap, pv, hist, he⟩ := h; subst he; rfl

theorem SameCtl.current_step {s s₁ : Session} (h : SameCtl s s₁) :
    s₁.state.current_step = s.state.current_step := by
  obtain ⟨stack, heap, pv, hist, he⟩ := h; subst he; rfl

theorem SameCtl.breakpoints {s s₁ : Session} (h : SameCtl s s₁) :
    s₁.state.breakpoints = s.state.breakpoints := by
  obtain ⟨stack, heap, pv, hist, he⟩ := h; subst he; rfl

theorem SameCtl.error_state {s s₁ : Session} (h : SameCtl s s₁) :
    s₁.state.error_state = s.state.error_state := by
  obtain ⟨stack, heap, pv, hist, he⟩ := h; subst he; rfl

theorem SameCtl.getCurrentStep_eq {s s₁ : Session} (h : SameCtl s s₁) :
    getCurrentStep s₁ = getCurrentStep s := by
  obtain ⟨stack, heap, pv, hist, he⟩ := h; subst he; rfl

/-! ## Monotone resolvability of variables -/

theorem getVariable_historyAppend (s₁ : Session) (hist : List HistoryEntry) (x : String) :
    getVariable { s₁ with state :=
      { s₁.state with execution_history := hist } } x = getVariable s₁ x := rfl

theorem getVariable_isSome_iff (s : Session) (x : String) :
    (getVariable s x).isSome ↔
      (frameGet s x).isSome ∨ (memGet s x).isSome ∨ (toolGet s x).isSome := by
  simp only [getVariable]
  cases frameGet s x <;> cases memGet s x <;> cases toolGet s x <;> simp

theorem frameGet_frameSet (s : Session) (st₁ : ExecutionState) (k : String) (w : Option String)
    (x : String)
    (hstk : st₁.stack = updateLastFrame s.state.stack (fun fr =>
      { fr with «variables» := objSet fr.«variables» k w })) :
    frameGet { s with state := st₁ } x =
      match s.state.stack.getLast? with
      | none => none
      | some fr => if k = x then w else propGet fr.«variables» x := by
  have hL := updateLastFrame_getLast?
    (fun fr => { fr with «variables» := objSet fr.«variables» k w }) s.state.stack
  simp only [frameGet, hstk, hL]
  cases s.state.stack.getLast? with
  | none => rfl
  | some fr => simp [propGet_objSet]

theorem getVariable_isSome_frameSet (s : Session) (k : String) (w : String) (x : String)
    (h : (getVariable s x).isSome) :
    (getVariable { s with state :=
      { s.state with
        stack := updateLastFrame s.state.stack (fun fr =>
          { fr with «variables» := objSet fr.«variables» k (some w) }) } } x).isSome := by
  rw [getVariable_isSome_iff] at h ⊢
  rw [frameGet_frameSet s _ k (some w) x rfl]
  rcases h with hfr | hmem | htool
  · left
    simp only [frameGet] at hfr
    cases hgl : s.state.stack.getLast? with
    | none => rw [hgl] at hfr; simp at hfr
    | some fr =>
      rw [hgl] at hfr
      by_cases hkx : k = x <;> simp [hkx]
      exact hfr
  · right; left; exact hmem
  · right; right; exact htool

theorem getVariable_isSome_memSet (s : Session) (k : String) (w : String) (x : String)
    (h : (getVariable s x).isSome) :
    (getVariable { s with state :=
      { s.state with
        memory := { s.state.memory with
          persistent_vars := objSet s.state.memory.persistent_vars k (some w) } } } x).isSome := by
  rw [getVariable_isSome_iff] at h ⊢
  have hm : memGet { s with state :=
      { s.state with
        memory := { s.state.memory with
          persistent_vars := objSet s.state.memory.persistent_vars k (some w) } } } x =
      if k = x then some w else memGet s x := by
    simp only [memGet]
    exact propGet_objSet s.state.memory.persistent_vars k (some w) x
  rw [hm]
  rcases h with hfr | hmem | htool
  · left; exact hfr
  · right; left
    by_cases hkx : k = x <;> simp [hkx]
    exact hmem
  · right; right; exact htool

theorem getVariable_isSome_cmdAssign (s : Session) (k out cmd : String) (ts : Nat) (x : String)
    (h : (getVariable s x).isSome) :
    (getVariable { s with state :=
      { s.state with
        heap := { s.state.heap with
          tool_outputs := objSet s.state.heap.tool_outputs k
            { command := cmd, output := out, timestamp := ts } }
        stack := updateLastFrame s.state.stack (fun fr =>
          { fr with «variables» := objSet fr.«variables» k (some out) }) } } x).isSome := by
  rw [getVariable_isSome_iff] at h ⊢
  rw [frameGet_frameSet s _ k (some out) x rfl]
  have ht : toolGet { s with state :=
      { s.state with
        heap := { s.state.heap with
          tool_outputs := objSet s.state.heap.tool_outputs k
            { command := cmd, output := out, timestamp := ts } }
        stack := updateLastFrame s.state.stack (fun fr =>
          { fr with «variables» := objSet fr.«variables» k (some out) }) } } x =
      if k = x then some { command := cmd, output := out, timestamp := ts } else toolGet s x := by
    simp only [toolGet]
    exact objGet_objSet s.state.heap.tool_outputs k _ x
  rw [ht]
  rcases h with hfr | hmem | htool
  · left
    simp only [frameGet] at hfr
    cases hgl : s.state.stack.getLast? with
    | none => rw [hgl] at hfr; simp at hfr
    | some fr =>
      rw [hgl] at hfr
      by_cases hkx : k = x <;> simp [hkx]
      exact hfr
  · right; left; exact hmem
  · right; right
    by_cases hkx : k = x <;> simp [hkx]
    exact htool

theorem executeCommand_getVar (env : Env) (s : Session) (c a : Option String) (x : String)
    (h : (getVariable s x).isSome) :
    (getVariable (executeCommand env s c a).1 x).isSome := by
  simp only [executeCommand, executeCommandRun]
  repeat' split
  all_goals first
    | exact h
    | exact getVariable_isSome_cmdAssign s _ _ _ _ x h

theorem executeAssignment_getVar (s : Session) (step : Step) (x : String)
    (hv : step.value.isSome) (h : (getVariable s x).isSome) :
    (getVariable (executeAssignment s step).1 x).isSome := by
  obtain ⟨tv, htv⟩ := Option.isSome_iff_exists.mp hv
  simp only [executeAssignment, htv, resolveVariablesOpt]
  split
  · exact getVariable_isSome_memSet s _ _ x h
  · exact getVariable_isSome_frameSet s _ _ x h

theorem executeAction_getVar (env : Env) (s : Session) (action : ActionObj) (x : String)
    (h : (getVariable s x).isSome) :
    (getVariable (executeAction env s action).1 x).isSome := by
  simp only [executeAction]
  split
  · exact executeCommand_getVar env s action.command action.assign_to x h
  · exact h
  · exact h

theorem executeConditional_getVar (env : Env) (s : Session) (step : Step) (x : String)
    (h : (getVariable s x).isSome) :
    (getVariable (executeConditional env s step).1 x).isSome := by
  simp only [executeConditional]
  split
  · exact h
  · split
    · exact executeAction_getVar env s _ x h
    · exact h

theorem executeChoice_getVar (env : Env) (s : Session) (step : Step) (x : String)
    (h : (getVariable s x).isSome) :
    (getVariable (executeChoice env s step).1 x).isSome := by
  simp only [executeChoice]
  split
  · split
    · exact executeAction_getVar env s _ x h
    · exact h
  · exact h

theorem executeCurrentStep_getVar (env : Env) (s : Session) (step : Step) (x : String)
    (hwf : WellFormedStep step) (h : (getVariable s x).isSome) :
    (getVariable (executeCurrentStep env s step).1 x).isSome := by
  simp only [executeCurrentStep]
  rw [getVariable_historyAppend]
  split
  · exact executeCommand_getVar env s step.command step.assign_to x h
  · exact executeConditional_getVar env s step x h
  · rename_i heq
    exact executeAssignment_getVar s step x (hwf heq) h
  · exact executeChoice_getVar env s step x h
  · exact h
  · exact h
  · exact h

theorem getCurrentStep_mem (s : Session) (st : Step) (h : getCurrentStep s = some st) :
    ∃ proc, proc ∈ s.program.procedures ∧ st ∈ proc.steps := by
  simp only [getCurrentStep] at h
  cases hf : s.program.procedures.find?
      (fun p => p.id = s.state.current_step.procedure_id) with
  | none => rw [hf] at h; cases h
  | some proc =>
    rw [hf] at h
    exact ⟨proc, List.mem_of_find?_eq_some hf, List.get?_mem h⟩

theorem advance_getVariable (s : Session) (x : String) :
    getVariable (advanceToNextStep s) x = getVariable s x := by
  simp only [advanceToNextStep]
  repeat' split
  all_goals rfl

theorem advance_program (s : Session) : (advanceToNextStep s).program = s.program := by
  simp only [advanceToNextStep]
  repeat' split
  all_goals rfl

theorem advance_totalSteps (s : Session) :
    (advanceToNextStep s).totalStepsExecuted = s.totalStepsExecuted := by
  simp only [advanceToNextStep]
  repeat' split
  all_goals rfl

theorem completeExecution_program (env : Env) (s : Session) :
    (completeExecution env s).1.program = s.program := rfl

theorem stepOver_program (env : Env) (s : Session) : (stepOver env s).1.program = s.program := by
  simp only [stepOver]
  split
  · rfl
  · split
    · exact completeExecution_program env s
    · rename_i st hcur
      have hc : (executeCurrentStep env (setStatus s "running") st).1.program = s.program :=
        (executeCurrentStep_sameCtl env (setStatus s "running") st).program
      split
      · split
        · show (advanceToNextStep
              (executeCurrentStep env (setStatus s "running") st).1).program = s.program
          rw [advance_program]; exact hc
        · split
          · show (advanceToNextStep
                (executeCurrentStep env (setStatus s "running") st).1).program = s.program
            rw [advance_program]; exact hc
          · show (advanceToNextStep
                (executeCurrentStep env (setStatus s "running") st).1).program = s.program
            rw [advance_program]; exact hc
      · exact hc

theorem stepOver_getVar (env : Env) (s : Session) (x : String)
    (hwf : WellFormedProgram s.program) (h : (getVariable s x).isSome) :
    (getVariable (stepOver env s).1 x).isSome := by
  simp only [stepOver]
  split
  · exact h
  · split
    · exact h
    · rename_i st hcur
      have hst : WellFormedStep st := by
        obtain ⟨proc, hproc, hstep⟩ := getCurrentStep_mem s st hcur
        exact hwf proc hproc st hstep
      have hEC : (getVariable (executeCurrentStep env (setStatus s "running") st).1 x).isSome :=
        executeCurrentStep_getVar env (setStatus s "running") st x hst h
      split
      · split
        · show (getVariable (advanceToNextStep
              (executeCurrentStep env (setStatus s "running") st).1) x).isSome
          rw [advance_getVariable]; exact hEC
        · split
          · show (getVariable (advanceToNextStep
                (executeCurrentStep env (setStatus s "running") st).1) x).isSome
            rw [advance_getVariable]; exact hEC
          · show (getVariable (advanceToNextStep
                (executeCurrentStep env (setStatus s "running") st).1) x).isSome
            rw [advance_getVariable]; exact hEC
      · exact hEC

theorem iterStepOver_program (env : Env) (s : Session) (n : Nat) :
    (iterStepOver env n s).program = s.program := by
  induction n with
  | zero => rfl
  | succ n ih =>
    simp only [iterStepOver]
    rw [stepOver_program, ih]

theorem iterStepOver_getVar (env : Env) (s : Session) (x : String) (n : Nat)
    (hwf : WellFormedProgram s.program) (h : (getVariable s x).isSome) :
    (getVariable (iterStepOver env n s) x).isSome := by
  induction n with
  | zero => exact h
  | succ n ih =>
    simp only [iterStepOver]
    refine stepOver_getVar env _ x ?_ ih
    rw [iterStepOver_program env s n]
    exact hwf

/-! ## The variable resolver on a single token -/

theorem resolveChars_token (lookupVar : String → Option String) (l : List Char)
    (hne : l ≠ []) (hw : ∀ c ∈ l, isWordChar c = true) :
    resolveChars lookupVar ('$' :: l) =
      match lookupVar (String.mk l) with
      | some v => v.toList
      | none => '$' :: l := by
  cases l with
  | nil => exact absurd rfl hne
  | cons hd tl =>
    have htw : (hd :: tl).takeWhile isWordChar = hd :: tl :=
      List.takeWhile_eq_self_iff.mpr hw
    show resolveCharsFuel lookupVar ('$' :: hd :: tl).length ('$' :: hd :: tl) = _
    rw [show ('$' :: hd :: tl).length = (hd :: tl).length + 1 from rfl]
    rw [resolveCharsFuel]
    simp only [htw, if_pos rfl, List.isEmpty_cons]
    have hdrop : (hd :: tl).drop (hd :: tl).length = [] := List.drop_length (hd :: tl)
    cases hv : lookupVar (String.mk (hd :: tl)) with
    | some v =>
      simp only [hv, hdrop]
      simp [resolveCharsFuel]
    | none =>
      simp only [hv, hdrop]
      simp [resolveCharsFuel]

theorem resolveVariables_token (s : Session) (l : List Char) (hne : l ≠ [])
    (hw : ∀ c ∈ l, isWordChar c = true) :
    resolveVariables s ("$" ++ String.mk l) =
      match getVariable s (String.mk l) with
      | some v => v
      | none => "$" ++ String.mk l := by
  have hd : ("$" ++ String.mk l) = String.mk ('$' :: l) := rfl
  have hne' : ¬("$" ++ String.mk l) = "" := by
    intro hcontra
    have hdata : '$' :: l = ([] : List Char) := congrArg String.data hcontra
    cases hdata
  simp only [resolveVariables, if_neg hne']
  rw [show ("$" ++ String.mk l).toList = '$' :: l from rfl]
  rw [resolveChars_token (getVariable s) l hne hw]
  cases hv : getVariable s (String.mk l) with
  | some v => rfl
  | none => rfl

/-! ## The trace of a pure note program -/

theorem noteProg_getCurrentStep (env : Env) (m k : Nat) (hk : k < m) :
    getCurrentStep (noteSessionAt env m k) = some (noteStepAt k) := by
  show ((List.range m).map noteStepAt).get? k = some (noteStepAt k)
  rw [List.get?_eq_getElem?, List.getElem?_map, List.getElem?_range hk]
  rfl

theorem stepOver_note (env : Env) (m k : Nat) (h : k + 1 < m) :
    (stepOver env (noteSessionAt env m k)).1 = noteSessionAt env m (k + 1) := by
  have hk : k < m := Nat.lt_of_succ_lt h
  have hcur := noteProg_getCurrentStep env m k hk
  have hcur' := noteProg_getCurrentStep env m (k + 1) h
  have hstat : ¬((noteSessionAt env m k).state.status = "completed" ∨
      (noteSessionAt env m k).state.status = "error") := by
    show ¬((if k = 0 then "initialized" else "paused") = "completed" ∨
      (if k = 0 then "initialized" else "paused") = "error")
    by_cases hk0 : k = 0 <;> simp [hk0]
  have hg1 : (List.range m)[k]? = some k := List.getElem?_range hk
  have hg2 : (List.range m)[k + 1]? = some (k + 1) := List.getElem?_range h
  have hlen : ¬ m ≤ k + 1 := by omega
  have hid : ¬ ("s" ++ toString (k + 1) = "") :=
    append_ne_empty_left "s" (toString (k + 1)) (by decide)
  simp only [stepOver]
  rw [if_neg hstat, hcur]
  dsimp only
  simp only [noteSessionAt, noteProg, noteStepAt, noteHistEntry, setStatus,
    getCurrentStep, executeCurrentStep, executeNote, advanceToNextStep, completeExecution,
    isBreakpoint, jsOrDefault, jsOrStr, jsTemplateStr, List.find?, List.get?_eq_getElem?,
    List.getElem?_map, hg1, hg2, List.length_map, List.length_range, hlen, hid]
  simp [List.range_succ, hid, hlen, jsIndexOf, jsListGet]
  constructor
  · rw [hg2]
    simp [noteStepAt, hid]
  · simp [noteHistEntry]

theorem iter_note (env : Env) (m : Nat) :
    ∀ k, k < m → iterStepOver env k (noteSessionAt env m 0) = noteSessionAt env m k := by
  intro k
  induction k with
  | zero => intro _; rfl
  | succ k ih =>
    intro hk
    have hk' : k < m := Nat.lt_of_succ_lt hk
    simp only [iterStepOver]
    rw [ih hk', stepOver_note env m k hk]

/-! ## Generic behaviour of `stepOver` when the new cursor carries a breakpoint -/

theorem stepOver_breakpoint_hit (env : Env) (s : Session) (step : Step)
    (hstat : ¬(s.state.status = "completed" ∨ s.state.status = "error"))
    (hcur : getCurrentStep s = some step)
    (hexec : (executeCurrentStep env (setStatus s "running") step).2.success = true)
    (hbp : isBreakpoint (afterStep env s step)
        (afterStep env s step).state.current_step.step_id = true) :
    stepOver env s =
      (setStatus (afterStep env s step) "paused",
        { success := true,
          step_result := some (executeCurrentStep env (setStatus s "running") step).2,
          message := some "Paused at breakpoint" }) := by
  simp only [stepOver]
  rw [if_neg hstat, hcur]
  dsimp only
  rw [hexec]
  simp only [eq_self_iff_true, if_true]
  split
  · rfl
  · rename_i hcond
    exact absurd hbp hcond

/-! ## Claim theorems -/

/-- Claim C1: the spec says `continue` on an `initialized` session of a
program with N steps (no breakpoints) terminates with status `completed` and
`totalStepsExecuted = N`.  The code violates this for N = 2: `stepOver`
marks every successful mid-program step `paused`, and the `continue` loop
returns as soon as it observes `paused`, so a single `continue` on the
two-note program executes exactly one step (only `s0` is in the history) and
stops `paused` with counter 1 — contradicting the code's own documentation
of `continue` ("Continue execution until breakpoint or completion"). -/
theorem C1_continue_stops_after_one_step :
    countTotalSteps (sessNotes 2).program = 2
    ∧ (sessNotes 2).state.status = "initialized"
    ∧ (sessNotes 2).state.breakpoints = []
    ∧ ((«continue» env0 (sessNotes 2)).1.state.status = "paused")
    ∧ ((«continue» env0 (sessNotes 2)).1.totalStepsExecuted = 1)
    ∧ ((«continue» env0 (sessNotes 2)).1.state.execution_history.map
        HistoryEntry.step_id = ["s0"])
    ∧ ((«continue» env0 (sessNotes 2)).2.message = some "Execution paused") := by
  decide

/-- Claim C2 (counterexample): on the two-note program with a breakpoint on
the second step `s1`, `continue` halts `paused` with `current_step` pointing
AT `s1`, having executed only the first step (`totalStepsExecuted = 1`, the
history holds `s0` alone) — the claim instead demands the cursor past `s1`
with `s1` already executed. -/
theorem C2_counterexample :
    sessBp.state.breakpoints = ["s1"]
    ∧ ((«continue» env0 sessBp).1.state.status = "paused")
    ∧ ((«continue» env0 sessBp).1.state.current_step.step_id = "s1")
    ∧ ((«continue» env0 sessBp).1.totalStepsExecuted = 1)
    ∧ ((«continue» env0 sessBp).1.state.execution_history.map
        HistoryEntry.step_id = ["s0"]) := by
  decide

/-- Claim C2 (amended): a breakpoint stops `continue` on ARRIVAL: when the
current step evaluates successfully and the advanced cursor lands on a
breakpointed step K (a genuinely new step, so K has NOT been executed),
`continue` halts with status `paused`, `current_step` pointing at K itself,
and exactly one more step executed. -/
theorem C2_breakpoint_stops_before_K (env : Env) (s : Session) (step : Step)
    (hcur : getCurrentStep s = some step)
    (hexec : (executeCurrentStep env (setStatus s "running") step).2.success = true)
    (hbp : isBreakpoint (afterStep env s step)
        (afterStep env s step).state.current_step.step_id = true)
    (hmoved : (afterStep env s step).state.current_step.step_id ≠ step.id) :
    ((«continue» env s).1.state.status = "paused")
    ∧ ((«continue» env s).1.state.current_step = (afterStep env s step).state.current_step)
    ∧ ((«continue» env s).1.totalStepsExecuted = s.totalStepsExecuted + 1)
    ∧ ((«continue» env s).2.message = some "Execution paused") := by
  have hcur₁ : getCurrentStep (setStatus s "running") = some step := hcur
  have hstat₁ : ¬((setStatus s "running").state.status = "completed" ∨
      (setStatus s "running").state.status = "error") := by
    simp [setStatus]
  have hso := stepOver_breakpoint_hit env (setStatus s "running") step hstat₁ hcur₁ hexec hbp
  rw [show («continue» env s) = continueLoop env (1001 + 1) (setStatus s "running") from rfl]
  rw [continueLoop]
  rw [show getCurrentStep (setStatus s "running") = some step from hcur₁]
  simp only [Option.isSome_some, setStatus, eq_self_iff_true, and_true, true_and, if_true]
  rw [show (stepOver env { s with state := { s.state with status := "running" } }) =
        stepOver env (setStatus s "running") from rfl]
  rw [hso]
  dsimp only
  simp only [Bool.not_true, if_false, eq_self_iff_true, if_true]
  refine ⟨rfl, rfl, ?_, rfl⟩
  show (advanceToNextStep
      (executeCurrentStep env (setStatus s "running") step).1).totalStepsExecuted + 1 =
    s.totalStepsExecuted + 1
  rw [advance_totalSteps,
    (executeCurrentStep_sameCtl env (setStatus s "running") step).totalSteps]
  rfl

/-- Claim C2 (witness): the amended breakpoint behaviour at the concrete
breakpoint session. -/
theorem C2_breakpoint_stops_before_K_witness :
    ((«continue» env0 sessBp).1.state.status = "paused")
    ∧ ((«continue» env0 sessBp).1.state.current_step =
        (afterStep env0 sessBp (noteStepAt 0)).state.current_step)
    ∧ ((«continue» env0 sessBp).1.totalStepsExecuted = sessBp.totalStepsExecuted + 1)
    ∧ ((«continue» env0 sessBp).2.message = some "Execution paused") :=
  C2_breakpoint_stops_before_K env0 sessBp (noteStepAt 0)
    (by decide) (by decide) (by decide) (by decide)

/-- An `error` session is frozen for `step_over`: the session is returned
unchanged with an informational message. -/
theorem stepOver_error_noop (env : Env) (s : Session) (h : s.state.status = "error") :
    stepOver env s = (s, { success := true, message := some "Execution already error" }) := by
  simp only [stepOver]
  rw [if_pos (Or.inr h), h]
  rfl

theorem ErrInv_stepOver (env : Env) (s : Session) (h : ErrInv s) : ErrInv (stepOver env s).1 := by
  simp only [stepOver]
  split
  · exact h
  · split
    · intro hst
      exact absurd (show ("completed" : String) = "error" from hst) (by decide)
    · split
      · split
        · intro hst
          exact absurd (show ("paused" : String) = "error" from hst) (by decide)
        · split
          · intro hst
            exact absurd (show ("completed" : String) = "error" from hst) (by decide)
          · intro hst
            exact absurd (show ("paused" : String) = "error" from hst) (by decide)
      · intro _
        intro hc
        exact Option.noConfusion hc

theorem ErrInv_continueLoop (env : Env) (fuel : Nat) :
    ∀ s, ErrInv s → ErrInv (continueLoop env fuel s).1 := by
  induction fuel with
  | zero => intro s h; exact h
  | succ fuel ih =>
    intro s h
    rw [continueLoop]
    dsimp only
    split
    · split
      · exact ErrInv_stepOver env s h
      · split
        · exact ErrInv_stepOver env s h
        · split
          · intro _
            intro hc
            exact Option.noConfusion hc
          · exact ih _ (ErrInv_stepOver env s h)
    · exact h

theorem ErrInv_continue (env : Env) (s : Session) : ErrInv ((«continue» env s).1) := by
  refine ErrInv_continueLoop env 1002 (setStatus s "running") ?_
  intro hst
  exact absurd (show ("running" : String) = "error" from hst) (by decide)

/-- Claim C3 (counterexample): `sErr` is an error session reached by failing
its (unknown-type) step: status `error`, one history entry.  `step_over`
indeed freezes, but `continue` does NOT: it re-executes the failing step, so
the history grows to two entries — the state is mutated, refuting "all
subsequent step/continue commands are no-ops". -/
theorem C3_counterexample :
    sErr.state.status = "error"
    ∧ sErr.state.error_state.isSome = true
    ∧ sErr.state.execution_history.length = 1
    ∧ ((«continue» env0 sErr).1.state.execution_history.length = 2)
    ∧ ((«continue» env0 sErr).1.state.status = "error")
    ∧ ((«continue» env0 sErr).2.success = false) := by
  decide

/-- Claim C3 (amended): `status = error` does imply `error_state ≠ null` (an
invariant established at session start and preserved by every state-machine
command), and `step_over` on an error session is a no-op returning the
frozen session; `continue`, however, overwrites the status with `running`
and re-executes the current step rather than freezing (see the
counterexample), though it can only re-enter `error` with a populated
`error_state`. -/
theorem C3_error_freeze_partial :
    (∀ env s, s.state.status = "error" →
      stepOver env s = (s, { success := true, message := some "Execution already error" }))
    ∧ (∀ env sid p a o, ErrInv (startSession env sid p a o))
    ∧ (∀ env s, ErrInv s → ErrInv (stepOver env s).1)
    ∧ (∀ env s, ErrInv ((«continue» env s).1))
    ∧ (∀ env s, ErrInv (reset env s).1) := by
  refine ⟨stepOver_error_noop, ?_, ErrInv_stepOver, ErrInv_continue, ?_⟩
  · intro env sid p a o hst
    exact absurd (show ("initialized" : String) = "error" from hst) (by decide)
  · intro env s hst
    exact absurd (show ("initialized" : String) = "error" from hst) (by decide)

/-- Claim C3 (witness): the frozen no-op equation applied at the concrete
error session. -/
theorem C3_error_freeze_witness :
    stepOver env0 sErr =
      (sErr, { success := true, message := some "Execution already error" }) :=
  C3_error_freeze_partial.1 env0 sErr (by decide)

set_option maxRecDepth 8000 in
/-- Claim C4 (counterexample): 1001 `step_over` commands on a 1002-note
program drive `totalStepsExecuted` to 1001 — beyond the 1000 ceiling — with
status still `paused` and no error: the limit check lives only inside
`continue`, so "whenever it exceeds 1000 the session is forced to status
error" is false, and the 1001-step scenario cannot end with
`totalStepsExecuted = 1000`. -/
theorem C4_counterexample :
    ((iterStepOver env0 1001 (sessNotes 1002)).totalStepsExecuted = 1001)
    ∧ ((iterStepOver env0 1001 (sessNotes 1002)).state.status = "paused")
    ∧ ((iterStepOver env0 1001 (sessNotes 1002)).state.error_state = none) := by
  have hstart : sessNotes 1002 = noteSessionAt env0 1002 0 := rfl
  have h := iter_note env0 1002 1001 (by omega)
  rw [hstart, h]
  exact ⟨rfl, rfl, rfl⟩

set_option maxRecDepth 8000 in
/-- Claim C4 (amended): `totalStepsExecuted` increases by exactly 1 per
successfully executed step and never otherwise — `stepOver` leaves it
unchanged on frozen sessions, on completion without a step, and on a failed
step.  The 1000-step ceiling is enforced only inside `continue`, on the path
where the executed step did not pause: there a counter above 1000 forces
status `error` with the step-limit message — concretely, `continue` on a
1001-note program with 1000 steps already executed runs the last step to
completion, sees counter 1001 > 1000, and errors with
`totalStepsExecuted = 1001`. -/
theorem C4_counter_exact_and_limit :
    (∀ env : Env, ∀ s : Session,
      (s.state.status = "completed" ∨ s.state.status = "error") →
      (stepOver env s).1.totalStepsExecuted = s.totalStepsExecuted)
    ∧ (∀ env : Env, ∀ s : Session,
        ¬(s.state.status = "completed" ∨ s.state.status = "error") →
        getCurrentStep s = none →
        (stepOver env s).1.totalStepsExecuted = s.totalStepsExecuted)
    ∧ (∀ env : Env, ∀ s : Session, ∀ step : Step,
        ¬(s.state.status = "completed" ∨ s.state.status = "error") →
        getCurrentStep s = some step →
        (executeCurrentStep env (setStatus s "running") step).2.success = true →
        (stepOver env s).1.totalStepsExecuted = s.totalStepsExecuted + 1)
    ∧ (∀ env : Env, ∀ s : Session, ∀ step : Step,
        ¬(s.state.status = "completed" ∨ s.state.status = "error") →
        getCurrentStep s = some step →
        (executeCurrentStep env (setStatus s "running") step).2.success = false →
        (stepOver env s).1.totalStepsExecuted = s.totalStepsExecuted)
    ∧ (((«continue» env0 (noteSessionAt env0 1001 1000)).1.state.status = "error")
      ∧ ((«continue» env0 (noteSessionAt env0 1001 1000)).1.totalStepsExecuted = 1001)
      ∧ ((«continue» env0 (noteSessionAt env0 1001 1000)).1.state.error_state =
          some { step_id := none,
                 error := some "Execution exceeded step limit (1000 steps)", timestamp := 0 })
      ∧ ((«continue» env0 (noteSessionAt env0 1001 1000)).2.error =
          some "Step limit exceeded")) := by
  refine ⟨?_, ?_, ?_, ?_, ?_⟩
  · intro env s h
    simp only [stepOver]
    rw [if_pos h]
  · intro env s h hcur
    simp only [stepOver]
    rw [if_neg h, hcur]
    rfl
  · intro env s step h hcur hexec
    simp only [stepOver]
    rw [if_neg h, hcur]
    dsimp only
    rw [hexec]
    simp only [eq_self_iff_true, if_true]
    have hc : (executeCurrentStep env (setStatus s "running") step).1.totalStepsExecuted =
        s.totalStepsExecuted :=
      (executeCurrentStep_sameCtl env (setStatus s "running") step).totalSteps
    split
    · show (advanceToNextStep
          (executeCurrentStep env (setStatus s "running") step).1).totalStepsExecuted + 1 =
        s.totalStepsExecuted + 1
      rw [advance_totalSteps, hc]
    · split
      · show (advanceToNextStep
            (executeCurrentStep env (setStatus s "running") step).1).totalStepsExecuted + 1 =
          s.totalStepsExecuted + 1
        rw [advance_totalSteps, hc]
      · show (advanceToNextStep
            (executeCurrentStep env (setStatus s "running") step).1).totalStepsExecuted + 1 =
          s.totalStepsExecuted + 1
        rw [advance_totalSteps, hc]
  · intro env s step h hcur hexec
    simp only [stepOver]
    rw [if_neg h, hcur]
    dsimp only
    rw [hexec]
    simp only [Bool.false_eq_true, if_false]
    exact (executeCurrentStep_sameCtl env (setStatus s "running") step).totalSteps
  · exact ⟨by decide, by decide, by decide, by decide⟩

/-- Claim C4 (witness): the exact-increment on a successful step at the
concrete two-note session. -/
theorem C4_counter_exact_witness :
    (stepOver env0 (sessNotes 2)).1.totalStepsExecuted =
      (sessNotes 2).totalStepsExecuted + 1 :=
  C4_counter_exact_and_limit.2.2.1 env0 (sessNotes 2) (noteStepAt 0)
    (by decide) (by decide) (by decide)

/-- Claim C5 (counterexample): in safe mode the risk gate inspects the RAW
command template, not the resolved command.  With frame variable `c` bound
to `rm -rf /tmp/x`, the step command `$c` resolves to a high-risk command,
yet `executeCommand` spawns the process and succeeds — refuting "first
resolves the template and then applies the risk gate to the resolved
command string". -/
theorem C5_counterexample :
    sessRisk.options.risk_level = "low"
    ∧ assessCommandRisk (resolveVariables sessRisk "$c") = "high"
    ∧ assessCommandRisk "$c" = "low"
    ∧ ((executeCommand envAcc sessRisk (some "$c") none).2.success = true)
    ∧ ((executeCommand envAcc sessRisk (some "$c") none).2.command =
        some "rm -rf /tmp/x") := by
  decide

/-- Claim C5 (amended): `executeCommand` applies the risk gate to the raw,
unresolved command template, and only the non-blocked path resolves `$var`
and runs the process.  When the session is in safe mode and the RAW template
classifies high, the step fails immediately with the risk level attached,
the session state untouched, and no process spawned — the result is the
same under every exec oracle; otherwise evaluation proceeds to
`executeCommandRun` (resolution followed by execution). -/
theorem C5_risk_gate_on_raw_template (s : Session) (cmd : String) (a : Option String) :
    (s.options.risk_level = "low" → assessCommandRisk cmd = "high" →
      ∀ env : Env, executeCommand env s (some cmd) a =
        (s, { success := false, error := some "High-risk command blocked in safe mode",
              output := none, risk_level := some "high" }))
    ∧ ((s.options.risk_level = "low" → ¬ assessCommandRisk cmd = "high") →
      ∀ env : Env, executeCommand env s (some cmd) a = executeCommandRun env s cmd a) := by
  constructor
  · intro hlow hhigh env
    simp only [executeCommand]
    rw [if_pos hlow, hhigh, if_pos rfl]
  · intro hnot env
    simp only [executeCommand]
    by_cases hlow : s.options.risk_level = "low"
    · rw [if_pos hlow, if_neg (hnot hlow)]
    · rw [if_neg hlow]

/-- Claim C5 (witness): the raw template `rm -rf /tmp/x` is blocked in safe
mode with the risk level attached and the session unchanged. -/
theorem C5_risk_gate_witness :
    executeCommand envAcc sessRisk (some "rm -rf /tmp/x") none =
      (sessRisk,
        { success := false, error := some "High-risk command blocked in safe mode",
          output := none, risk_level := some "high" }) :=
  (C5_risk_gate_on_raw_template sessRisk "rm -rf /tmp/x" none).1
    (by decide) (by decide) envAcc

/-- Claim C6: `$name` resolution substitutes by the first hit in the order
frame map, then `memory.persistent_vars`, then
`heap.tool_outputs[name].output`, and leaves the token verbatim, without an
error, when no tier defines the name. -/
theorem C6_lookup_order (s : Session) (l : List Char) (hne : l ≠ [])
    (hw : ∀ c ∈ l, isWordChar c = true) :
    (∀ v, frameGet s (String.mk l) = some v →
      resolveVariables s ("$" ++ String.mk l) = v)
    ∧ (frameGet s (String.mk l) = none →
      ∀ v, memGet s (String.mk l) = some v →
        resolveVariables s ("$" ++ String.mk l) = v)
    ∧ (frameGet s (String.mk l) = none → memGet s (String.mk l) = none →
      ∀ o, toolGet s (String.mk l) = some o →
        resolveVariables s ("$" ++ String.mk l) = o.output)
    ∧ (frameGet s (String.mk l) = none → memGet s (String.mk l) = none →
      toolGet s (String.mk l) = none →
        resolveVariables s ("$" ++ String.mk l) = "$" ++ String.mk l) := by
  have hres := resolveVariables_token s l hne hw
  refine ⟨?_, ?_, ?_, ?_⟩
  · intro v hf
    rw [hres]
    simp only [getVariable, hf]
  · intro hf v hm
    rw [hres]
    simp only [getVariable, hf, hm]
  · intro hf hm o ht
    rw [hres]
    simp only [getVariable, hf, hm, ht]
  · intro hf hm ht
    rw [hres]
    simp only [getVariable, hf, hm, ht]

/-- Claim C6 (witness): the three tiers and the verbatim fallback on the
concrete session `sessTier` (frame wins for `a`, persistent memory for `b`,
tool outputs for `c3`, and `$zz` is left verbatim). -/
theorem C6_lookup_order_witness :
    resolveVariables sessTier ("$" ++ String.mk ['a']) = "FR"
    ∧ resolveVariables sessTier ("$" ++ String.mk ['b']) = "PM2"
    ∧ resolveVariables sessTier ("$" ++ String.mk ['c', '3']) = "TO3"
    ∧ resolveVariables sessTier ("$" ++ String.mk ['z', 'z']) =
        "$" ++ String.mk ['z', 'z'] := by
  refine ⟨?_, ?_, ?_, ?_⟩
  · exact (C6_lookup_order sessTier ['a'] (by decide) (by decide)).1 "FR" (by decide)
  · exact (C6_lookup_order sessTier ['b'] (by decide) (by decide)).2.1
      (by decide) "PM2" (by decide)
  · exact (C6_lookup_order sessTier ['c', '3'] (by decide) (by decide)).2.2.1
      (by decide) (by decide) { command := "c", output := "TO3", timestamp := 0 } (by decide)
  · exact (C6_lookup_order sessTier ['z', 'z'] (by decide) (by decide)).2.2.2
      (by decide) (by decide) (by decide)

/-- Claim C7: evaluating an assignment step resolves `value` and stores the
result resolvably under its declared name — in `frame[assign_to]` in the
general case, and in `memory.persistent_vars` under the step's `variable`
name when `assign_to` is "memory"/"global" (resolvable whenever no frame
binding shadows it); moreover a name resolvable now remains resolvable after
any number of later `step_over` commands of the same session (for a
well-formed program whose assignment steps all carry values). -/
theorem C7_assignment_resolvable (env : Env) (s : Session) (step : Step) (tv : String)
    (hty : step.type = "assignment") (hval : step.value = some tv)
    (hstack : s.state.stack ≠ []) :
    (∀ a, step.assign_to = some a → a ≠ "memory" → a ≠ "global" →
      (executeCurrentStep env s step).2.success = true
      ∧ getVariable (executeCurrentStep env s step).1 a = some (resolveVariables s tv))
    ∧ (∀ x, (step.assign_to = some "memory" ∨ step.assign_to = some "global") →
        step.«variable» = some x → x ≠ "" →
        (executeCurrentStep env s step).2.success = true
        ∧ memGet (executeCurrentStep env s step).1 x = some (resolveVariables s tv)
        ∧ (frameGet (executeCurrentStep env s step).1 x = none →
            getVariable (executeCurrentStep env s step).1 x = some (resolveVariables s tv)))
    ∧ (∀ n x, WellFormedProgram s.program → (getVariable s x).isSome →
        (getVariable (iterStepOver env n s) x).isSome) := by
  obtain ⟨fr, hfr⟩ := Option.isSome_iff_exists.mp
    (List.getLast?_isSome.mpr hstack)
  refine ⟨?_, ?_, ?_⟩
  · intro a ha hm hg
    have hcond : ¬(step.assign_to = some "memory" ∨ step.assign_to = some "global") := by
      rw [ha]
      simp [hm, hg]
    simp only [executeCurrentStep, hty, executeAssignment, hval, resolveVariablesOpt]
    rw [if_neg hcond]
    refine ⟨trivial, ?_⟩
    simp only [getVariable, frameGet]
    rw [updateLastFrame_getLast?, hfr]
    simp [propGet_objSet, ha, jsTemplateStr]
  · intro x hor hvar hx
    have hkey : jsOrDefault step.«variable» "temp" = x := by
      rw [hvar]
      simp [jsOrDefault, hx]
    simp only [executeCurrentStep, hty, executeAssignment, hval, resolveVariablesOpt]
    rw [if_pos hor, hkey]
    refine ⟨trivial, ?_, ?_⟩
    · simp only [memGet]
      rw [propGet_objSet]
      simp
    · intro hfnone
      simp only [getVariable]
      rw [hfnone]
      simp only [memGet]
      rw [propGet_objSet]
      simp
  · intro n x hwf h
    exact iterStepOver_getVar env s x n hwf h

/-- Claim C7 (witness): the frame write on `sessTier` resolves immediately,
and the already-bound `a` survives two further `step_over` commands. -/
theorem C7_assignment_witness :
    ((executeCurrentStep env0 sessTier asgStep).2.success = true
      ∧ getVariable (executeCurrentStep env0 sessTier asgStep).1 "x" =
          some (resolveVariables sessTier "hello $y"))
    ∧ (getVariable (iterStepOver env0 2 sessTier) "a").isSome := by
  have h := C7_assignment_resolvable env0 sessTier asgStep "hello $y"
    (by decide) (by decide) (by decide)
  refine ⟨h.1 "x" (by decide) (by decide) (by decide), h.2.2 2 "a" ?_ (by decide)⟩
  unfold WellFormedProgram WellFormedStep
  decide

/-- Evaluating a step of unknown type fails with the "Unknown step type"
message and records one failed history entry, touching nothing else. -/
theorem executeCurrentStep_unknown (env : Env) (s : Session) (step : Step)
    (h1 : step.type ≠ "command") (h2 : step.type ≠ "conditional")
    (h3 : step.type ≠ "assignment") (h4 : step.type ≠ "choice")
    (h5 : step.type ≠ "analysis") (h6 : step.type ≠ "note") :
    executeCurrentStep env s step =
      ({ s with state := { s.state with
          execution_history := s.state.execution_history ++
            [{ step_id := step.id, type := step.type, started_at := env.now,
               completed_at := env.now, duration_ms := 0, success := false, output := none,
               error := some ("Unknown step type: " ++ step.type) }] } },
       { success := false, error := some ("Unknown step type: " ++ step.type) }) := by
  have hne : ¬("Unknown step type: " ++ step.type = "") :=
    append_ne_empty_left _ _ (by decide)
  simp only [executeCurrentStep]
  simp [jsOrStr, hne]

/-- `stepOver` on an active session whose current step has an unknown type:
the step fails, the status becomes `error` and `error_state` is populated
with the "Unknown step type" message; the cursor does not advance and the
counter does not change. -/
theorem stepOver_unknown (env : Env) (s : Session) (step : Step)
    (hstat : ¬(s.state.status = "completed" ∨ s.state.status = "error"))
    (hcur : getCurrentStep s = some step)
    (h1 : step.type ≠ "command") (h2 : step.type ≠ "conditional")
    (h3 : step.type ≠ "assignment") (h4 : step.type ≠ "choice")
    (h5 : step.type ≠ "analysis") (h6 : step.type ≠ "note") :
    stepOver env s =
      ({ s with state := { s.state with
          status := "error"
          execution_history := s.state.execution_history ++
            [{ step_id := step.id, type := step.type, started_at := env.now,
               completed_at := env.now, duration_ms := 0, success := false, output := none,
               error := some ("Unknown step type: " ++ step.type) }]
          error_state := some { step_id := some step.id,
                                error := some ("Unknown step type: " ++ step.type),
                                timestamp := env.now } } },
       { success := false,
         step_result := some { success := false,
                               error := some ("Unknown step type: " ++ step.type) } }) := by
  simp only [stepOver]
  rw [if_neg hstat, hcur]
  dsimp only
  rw [executeCurrentStep_unknown env (setStatus s "running") step h1 h2 h3 h4 h5 h6]
  dsimp only
  rfl

/-- Claim C8 (counterexample): a conditional step whose condition type is
the unknown tag "mystery" does NOT produce an `ExecutionError`: the
condition silently evaluates to `false`, the step succeeds, and the session
completes with no `error_state` — only unknown STEP types error. -/
theorem C8_counterexample :
    (evaluateCondition sessWeird { type := "mystery" } = false)
    ∧ ((stepOver env0 sessWeird).2.success = true)
    ∧ ((stepOver env0 sessWeird).1.state.status = "completed")
    ∧ ((stepOver env0 sessWeird).1.state.error_state = none) := by
  decide

/-- Claim C8 (amended): a step whose `type` is none of the six known kinds
fails as an ExecutionError — `stepOver` sets status `error` with a populated
`error_state`, and the session stays in `error` under both further
`step_over` (frozen no-op) and further `continue` (which re-runs the
unknown step, fails again and re-enters `error`), so only `reset` recovers;
an unknown CONDITION type, by contrast, merely makes `evaluateCondition`
return `false`. -/
theorem C8_unknown_step_errors_condition_does_not :
    (∀ (s : Session) (c : Condition), c.type ≠ "equality_check" →
      c.type ≠ "contains_check" → c.type ≠ "boolean_check" →
      evaluateCondition s c = false)
    ∧ (∀ (env : Env) (s : Session) (step : Step),
        ¬(s.state.status = "completed" ∨ s.state.status = "error") →
        getCurrentStep s = some step →
        step.type ≠ "command" → step.type ≠ "conditional" → step.type ≠ "assignment" →
        step.type ≠ "choice" → step.type ≠ "analysis" → step.type ≠ "note" →
        ((stepOver env s).2.success = false
          ∧ (stepOver env s).1.state.status = "error"
          ∧ (stepOver env s).1.state.error_state =
              some { step_id := some step.id,
                     error := some ("Unknown step type: " ++ step.type),
                     timestamp := env.now }))
    ∧ (∀ (env : Env) (s : Session), s.state.status = "error" →
        stepOver env s = (s, { success := true, message := some "Execution already error" }))
    ∧ (∀ (env : Env) (s : Session) (step : Step),
        getCurrentStep s = some step →
        step.type ≠ "command" → step.type ≠ "conditional" → step.type ≠ "assignment" →
        step.type ≠ "choice" → step.type ≠ "analysis" → step.type ≠ "note" →
        ((«continue» env s).1.state.status = "error"
          ∧ («continue» env s).1.state.error_state ≠ none
          ∧ («continue» env s).2.success = false)) := by
  refine ⟨?_, ?_, stepOver_error_noop, ?_⟩
  · intro s c hc1 hc2 hc3
    simp [evaluateCondition]
  · intro env s step hstat hcur h1 h2 h3 h4 h5 h6
    rw [stepOver_unknown env s step hstat hcur h1 h2 h3 h4 h5 h6]
    refine ⟨rfl, rfl, rfl⟩
  · intro env s step hcur h1 h2 h3 h4 h5 h6
    have hstat₁ : ¬((setStatus s "running").state.status = "completed" ∨
        (setStatus s "running").state.status = "error") := by
      simp [setStatus]
    have hcur₁ : getCurrentStep (setStatus s "running") = some step := hcur
    have hso := stepOver_unknown env (setStatus s "running") step hstat₁ hcur₁ h1 h2 h3 h4 h5 h6
    rw [show «continue» env s = continueLoop env (1001 + 1) (setStatus s "running") from rfl]
    rw [continueLoop]
    dsimp only
    rw [hcur₁]
    simp only [Option.isSome_some, eq_self_iff_true, and_true, true_and, if_true, setStatus]
    rw [show (stepOver env { s with state := { s.state with status := "running" } }) =
          stepOver env (setStatus s "running") from rfl]
    rw [hso]
    dsimp only
    refine ⟨rfl, ?_, rfl⟩
    intro hc
    exact Option.noConfusion hc

/-- Claim C8 (witness): the unknown-step-type branch at the concrete session
`sessBogus` (step type "bogus"). -/
theorem C8_unknown_step_witness :
    ((stepOver env0 sessBogus).2.success = false
      ∧ (stepOver env0 sessBogus).1.state.status = "error"
      ∧ (stepOver env0 sessBogus).1.state.error_state =
          some { step_id := some "b1", error := some "Unknown step type: bogus",
                 timestamp := 0 })
    ∧ evaluateCondition sessWeird { type := "mystery", «variable» := some "v" } = false := by
  have h := C8_unknown_step_errors_condition_does_not
  refine ⟨?_, ?_⟩
  · exact h.2.1 env0 sessBogus bogusStep (by decide) (by decide)
      (by decide) (by decide) (by decide) (by decide) (by decide) (by decide)
  · exact h.1 sessWeird { type := "mystery", «variable» := some "v" }
      (by decide) (by decide) (by decide)

/-- Claim C9 (counterexample): `reset` is not byte-for-byte a fresh state —
it embeds the wall-clock of the reset, not of the original start.  After one
step of the two-note session started at clock 0, a `reset` issued at clock 1
yields `started_at = 1` (and a frame `created_at` of 1), while the fresh
state has `started_at = 0`: the two states differ. -/
theorem C9_counterexample :
    ((reset env1 (iterStepOver env0 1 (sessNotes 2))).1.state ≠ (sessNotes 2).state)
    ∧ ((reset env1 (iterStepOver env0 1 (sessNotes 2))).1.state.started_at = 1)
    ∧ ((sessNotes 2).state.started_at = 0) := by
  decide

/-- Claim C9 (amended): up to the two wall-clock fields (`started_at`, each
frame's `created_at`), `reset` at any point yields exactly the fresh initial
state for the same program and analysis — same `initialized` status, same
initial cursor, empty frame/heap/memory, empty histories, empty breakpoints,
null error state — and zeroes the session counters and command history. -/
theorem C9_reset_fresh_up_to_time (env : Env) (t : Nat) (s : Session) :
    timeless ((reset env s).1.state) = timeless (createInitialState t s.program s.analysis)
    ∧ (reset env s).1.totalStepsExecuted = 0
    ∧ (reset env s).1.commandHistory = []
    ∧ (reset env s).1.state.status = "initialized"
    ∧ (reset env s).1.state.breakpoints = []
    ∧ (reset env s).1.state.execution_history = []
    ∧ (reset env s).1.state.error_state = none :=
  ⟨rfl, rfl, rfl, rfl, rfl, rfl, rfl⟩

/-- Claim C10: `manageBreakpoint` with action "set" performs no validation
of the step id against the program — for EVERY string `stepId` it succeeds
whenever the session id is known (and the id lands in the breakpoint set of
the stored session), and it fails exactly when the session id is unknown. -/
theorem C10_breakpoint_no_validation (sessions : List (String × Session))
    (sessionId stepId : String) :
    ((manageBreakpoint sessions sessionId stepId "set").2.success =
      (objGet sessions sessionId).isSome)
    ∧ (∀ sess, objGet sessions sessionId = some sess →
        ((manageBreakpoint sessions sessionId stepId "set").2.breakpoints.contains stepId
          = true)
        ∧ (∀ sess₁,
            objGet (manageBreakpoint sessions sessionId stepId "set").1 sessionId = some sess₁ →
            sess₁.state.breakpoints.contains stepId = true))
    ∧ (objGet sessions sessionId = none →
        (manageBreakpoint sessions sessionId stepId "set").2.error = some "Session not found"
        ∧ (manageBreakpoint sessions sessionId stepId "set").1 = sessions) := by
  simp only [manageBreakpoint]
  cases hg : objGet sessions sessionId with
  | none =>
    refine ⟨rfl, ?_, fun _ => ⟨rfl, rfl⟩⟩
    intro sess hc
    exact Option.noConfusion hc
  | some sess =>
    dsimp only
    by_cases hc : sess.state.breakpoints.contains stepId = true
    · rw [if_neg (fun hand => hand.2 hc), if_neg (show ¬("set" : String) = "remove" by decide)]
      refine ⟨rfl, ?_, ?_⟩
      · intro sess₀ hs₀
        refine ⟨hc, ?_⟩
        intro sess₁ hs₁
        rw [objGet_objSet, if_pos rfl] at hs₁
        cases hs₁
        exact hc
      · intro hcontra
        exact Option.noConfusion hcontra
    · rw [if_pos ⟨trivial, hc⟩]
      refine ⟨rfl, ?_, ?_⟩
      · intro sess₀ hs₀
        refine ⟨contains_append_singleton _ _, ?_⟩
        intro sess₁ hs₁
        rw [objGet_objSet, if_pos rfl] at hs₁
        cases hs₁
        exact contains_append_singleton _ _
      · intro hcontra
        exact Option.noConfusion hcontra

/-- Claim C10 (witness): setting a breakpoint on `ghost_step` — a step id
that names no step of the two-note program — succeeds and stores it. -/
theorem C10_breakpoint_witness :
    ((manageBreakpoint registry1 "sid" "ghost_step" "set").2.success = true)
    ∧ ((manageBreakpoint registry1 "sid" "ghost_step" "set").2.breakpoints.contains
        "ghost_step" = true) := by
  have h := C10_breakpoint_no_validation registry1 "sid" "ghost_step"
  refine ⟨?_, (h.2.1 (sessNotes 2) (by decide)).1⟩
  rw [h.1]
  decide

end Entran
